import Mathlib

/-!
# Verification of `homeassistant/components/alexa/flash_briefings.py`

A shallow embedding of the Alexa flash-briefings HTTP endpoint
(`AlexaFlashBriefingView`) and proofs about its observable behaviour.

Modelling conventions:
* Python values occurring in the briefing configuration are modelled by the
  inductive type `PyValue`; Python `None` is the constructor `PyValue.none`.
* Python dicts are modelled as association lists (`Dict`), with `dget`
  mirroring `dict.get(key)` (returning `None` when the key is absent) and
  `dset` mirroring `dict[key] = value` (replace in place, else append,
  preserving insertion order).
* `template.Template` values are modelled by the constructor
  `PyValue.template r`, where `r` is the string the template renders to at
  request time via `async_render(parse_result=False)`.
* Impure inputs of the handler are passed as explicit parameters: the
  per-item freshly generated `uuid.uuid4()` strings as `fresh : Nat → String`
  (item `i` draws `fresh i`), and the formatted current UTC time
  `dt_util.utcnow().strftime(DATE_FORMAT)` as `now : String`.
* A Python exception escaping the handler is modelled as `Option.none`; a
  returned response is `Option.some`.
-/

/-- A Python value as it may occur in the flash-briefing configuration:
`None`, a string, an integer, a `template.Template` (carrying the string it
renders to at request time), a list, or a dict. -/
inductive PyValue where
  | none
  | str (s : String)
  | int (n : Int)
  | template (rendered : String)
  | list (xs : List PyValue)
  | dict (entries : List (String × PyValue))

/-- A Python dict, modelled as an insertion-ordered association list. -/
abbrev Dict := List (String × PyValue)

/-- `d.get(k)`: the value of the first entry with key `k`, or Python `None`
when the key is absent (mirroring `dict.get`'s default). -/
def dget : Dict → String → PyValue
  | [], _ => PyValue.none
  | (k', v) :: rest, k => if k' = k then v else dget rest k

/-- `d[k] = v`: replace the value of an existing entry for `k` in place,
otherwise append the new entry at the end (Python dicts preserve insertion
order). -/
def dset : Dict → String → PyValue → Dict
  | [], k, v => [(k, v)]
  | (k', v') :: rest, k, v =>
    if k' = k then (k, v) :: rest else (k', v') :: dset rest k v

/-- `k in d`: key membership, as distinct from `d.get(k) is not None`. -/
def hasKey (d : Dict) (k : String) : Bool :=
  d.any (fun p => p.1 == k)

/-- Remove every entry with key `k` (an item in which `k` was never set). -/
def eraseKey (d : Dict) (k : String) : Dict :=
  d.filter (fun p => p.1 ≠ k)

/-- `str(v)` for the values `get_uid` may stringify.  Only the `str` and
`int` cases are exercised by realistic configurations; the remaining cases
are fixed deterministic renderings standing in for CPython's `repr`-based
output, which the claims never inspect beyond determinism. -/
def pyStr : PyValue → String
  | PyValue.none => "None"
  | PyValue.str s => s
  | PyValue.int n => toString n
  | PyValue.template r => "<Template " ++ r ++ ">"
  | PyValue.list _ => "<list>"
  | PyValue.dict _ => "<dict>"

/-- Modelled from the spec: the password query-parameter name served by
`homeassistant.components.alexa.const.API_PASSWORD` (the `const` module is
not part of the given sources; §6 of the spec shows `api_password`). -/
def API_PASSWORD : String := "api_password"

/-- Modelled from the spec: `homeassistant.const.CONF_PASSWORD`, the
configuration key holding the shared password (module not in the sources). -/
def CONF_PASSWORD : String := "password"

/-- Modelled from the spec: configuration key for an item's title. -/
def CONF_TITLE : String := "title"

/-- Modelled from the spec: configuration key for an item's body text. -/
def CONF_TEXT : String := "text"

/-- Modelled from the spec: configuration key for an item's explicit UID. -/
def CONF_UID : String := "uid"

/-- Modelled from the spec: configuration key for an item's audio URL. -/
def CONF_AUDIO : String := "audio"

/-- Modelled from the spec: configuration key for an item's display URL. -/
def CONF_DISPLAY_URL : String := "display_url"

/-- Modelled from the spec: output wire key for the title text. -/
def ATTR_TITLE_TEXT : String := "titleText"

/-- Modelled from the spec: output wire key for the main text. -/
def ATTR_MAIN_TEXT : String := "mainText"

/-- Modelled from the spec: output wire key for the UID. -/
def ATTR_UID : String := "uid"

/-- Modelled from the spec: output wire key for the audio stream URL. -/
def ATTR_STREAM_URL : String := "streamUrl"

/-- Modelled from the spec: output wire key for the redirection URL. -/
def ATTR_REDIRECTION_URL : String := "redirectionURL"

/-- Modelled from the spec: output wire key for the update date. -/
def ATTR_UPDATE_DATE : String := "updateDate"

/-- Modelled from the spec: the fixed date/time format string
(`homeassistant.components.alexa.const.DATE_FORMAT`) applied to the current
UTC time for the update-date field. -/
def DATE_FORMAT : String := "%Y-%m-%dT%H:%M:%S.0Z"

/-- An inbound HTTP request, reduced to what the handler reads: its query
parameters.  `query.get(name)` yields the first value for `name` or `None`. -/
structure Request where
  query : List (String × String)

/-- `request.query.get(name)`: first value bound to `name`, if any. -/
def qget : List (String × String) → String → Option String
  | [], _ => Option.none
  | (k', v) :: rest, k => if k' = k then some v else qget rest k

/-- The number of per-character comparison steps `hmac.compare_digest`
performs on the two byte strings: it always walks the whole common extent,
never stopping at the first mismatch. -/
def ctSteps (a b : List Char) : Nat := (a.zip b).length

/-- `hmac.compare_digest(a, b)` on UTF-8 encodings of strings: true exactly
when the operands are equal, computed without short-circuiting — a length
check combined with a fold accumulating per-character equality over the
whole common extent (see `ctSteps` for its step count). -/
def compare_digest (a b : String) : Bool :=
  a.data.length == b.data.length &&
    (a.data.zip b.data).foldl (fun acc p => acc && (p.1 == p.2)) true

/-- The HTTP response produced by `AlexaFlashBriefingView.get`: either a
plain body with an explicit status (the `(b"", HTTPStatus...)` returns,
with the body as a string of bytes) or `self.json(records)` — a JSON
array of the output records serialized by the framework with the given
status (200, `self.json`'s default). -/
inductive Response where
  | plain (body : String) (status : Nat)
  | json (records : List Dict) (status : Nat)

namespace AlexaFlashBriefingView

/-- `validate_password(request)`.  `some b` is a normal return of `b`;
`Option.none` models the `AttributeError` raised when the configured
password value is not a string (`.encode` on a non-`str`). -/
def validate_password (flash_briefings : Dict) (request : Request) :
    Option Bool :=
  match qget request.query API_PASSWORD with
  | Option.none => some false
  | some supplied =>
    match dget flash_briefings CONF_PASSWORD with
    | PyValue.str configured => some (compare_digest supplied configured)
    | _ => Option.none

/-- `is_valid_briefing(briefing_id)`:
`isinstance(self.flash_briefings.get(briefing_id), list)`. -/
def is_valid_briefing (flash_briefings : Dict) (briefing_id : String) :
    Bool :=
  match dget flash_briefings briefing_id with
  | PyValue.list _ => true
  | _ => false

/-- `add_attribute_to_output(item, conf_key, output, output_key)`: if the
item's value at `conf_key` is not `None`, write it to `output[output_key]`
— rendered with `parse_result=False` when it is a `Template`, otherwise
pass the configured value through unchanged. -/
def add_attribute_to_output (item : Dict) (conf_key : String)
    (output : Dict) (output_key : String) : Dict :=
  match dget item conf_key with
  | PyValue.none => output
  | PyValue.template r => dset output output_key (PyValue.str r)
  | v => dset output output_key v

/-- `get_uid(item)`: the stringified configured UID, or the freshly drawn
`str(uuid.uuid4())` (passed in as `fresh`) when `item.get("uid")` is
`None`. -/
def get_uid (item : Dict) (fresh : String) : String :=
  match dget item CONF_UID with
  | PyValue.none => fresh
  | v => pyStr v

/-- `process_item(item)` on an item that is a dict (a non-dict item raises
`AttributeError`, i.e. `Option.none` at the call site).  `fresh` is this
invocation's `str(uuid.uuid4())` draw and `now` the formatted current UTC
time. -/
def process_item_dict (item : Dict) (fresh : String) (now : String) : Dict :=
  let output : Dict := []
  let output := add_attribute_to_output item CONF_TITLE output ATTR_TITLE_TEXT
  let output := add_attribute_to_output item CONF_TEXT output ATTR_MAIN_TEXT
  let output := dset output ATTR_UID (PyValue.str (get_uid item fresh))
  let output := add_attribute_to_output item CONF_AUDIO output ATTR_STREAM_URL
  let output :=
    add_attribute_to_output item CONF_DISPLAY_URL output ATTR_REDIRECTION_URL
  dset output ATTR_UPDATE_DATE (PyValue.str now)

/-- `process_item(item)`: `Option.none` when the item is not a dict
(`item.get` raises). -/
def process_item (item : PyValue) (fresh : String) (now : String) :
    Option Dict :=
  match item with
  | PyValue.dict d => some (process_item_dict d fresh now)
  | _ => Option.none

/-- The `for item in ...: output = self.process_item(item); if output:
briefing.append(output)` loop.  Item `i` of the list draws `fresh i`;
a falsy (empty) record is skipped; an exception anywhere yields
`Option.none`. -/
def processItems : List PyValue → (Nat → String) → String →
    Option (List Dict)
  | [], _, _ => some []
  | item :: rest, fresh, now =>
    match process_item item (fresh 0) now,
        processItems rest (fun n => fresh (n + 1)) now with
    | some output, some briefing =>
      some (if output.isEmpty then briefing else output :: briefing)
    | _, _ => Option.none

/-- `get(request, briefing_id)`: the whole request handler.  Password check,
briefing-ID check, per-item transform, JSON response. -/
def get (flash_briefings : Dict) (request : Request) (briefing_id : String)
    (fresh : Nat → String) (now : String) : Option Response :=
  match validate_password flash_briefings request with
  | Option.none => Option.none
  | some false => some (Response.plain "" 401)
  | some true =>
    if is_valid_briefing flash_briefings briefing_id then
      match dget flash_briefings briefing_id with
      | PyValue.list items =>
        (processItems items fresh now).map (fun recs => Response.json recs 200)
      | PyValue.none => some (Response.json [] 200)
      | _ => Option.none
    else some (Response.plain "" 404)

end AlexaFlashBriefingView

/-! ## Dictionary lemmas -/

theorem dget_dset_self (d : Dict) (k : String) (v : PyValue) :
    dget (dset d k v) k = v := by
  induction d with
  | nil => simp [dget, dset]
  | cons p rest ih =>
    obtain ⟨k', v'⟩ := p
    by_cases h : k' = k <;> simp [dget, dset, h, ih]

theorem dget_dset_ne (d : Dict) (k' k : String) (v : PyValue)
    (h : k' ≠ k) : dget (dset d k' v) k = dget d k := by
  induction d with
  | nil => simp [dget, dset, h]
  | cons p rest ih =>
    obtain ⟨k₀, v₀⟩ := p
    by_cases h₀ : k₀ = k'
    · subst h₀; simp [dget, dset, h]
    · simp only [dset, if_neg h₀, dget]
      split <;> simp [dget, ih]

theorem hasKey_dset_self (d : Dict) (k : String) (v : PyValue) :
    hasKey (dset d k v) k = true := by
  induction d with
  | nil => simp [hasKey, dset]
  | cons p rest ih =>
    obtain ⟨k₀, v₀⟩ := p
    by_cases h₀ : k₀ = k <;> simp_all [hasKey, dset, List.any]

theorem hasKey_dset_ne (d : Dict) (k' k : String) (v : PyValue)
    (h : k' ≠ k) : hasKey (dset d k' v) k = hasKey d k := by
  induction d with
  | nil => simp [hasKey, dset, h, Ne.symm h]
  | cons p rest ih =>
    obtain ⟨k₀, v₀⟩ := p
    by_cases h₀ : k₀ = k' <;> simp_all [hasKey, dset, List.any]

theorem dset_ne_nil (d : Dict) (k : String) (v : PyValue) :
    dset d k v ≠ [] := by
  cases d with
  | nil => simp [dset]
  | cons p rest =>
    obtain ⟨k₀, v₀⟩ := p
    by_cases h₀ : k₀ = k <;> simp [dset, h₀]

theorem dget_eraseKey_ne (d : Dict) (k' k : String) (h : k' ≠ k) :
    dget (eraseKey d k') k = dget d k := by
  induction d with
  | nil => simp [eraseKey]
  | cons p rest ih =>
    obtain ⟨k₀, v₀⟩ := p
    by_cases h₀ : k₀ = k'
    · subst h₀
      simpa [eraseKey, dget, h] using ih
    · by_cases h₁ : k₀ = k <;> simp_all [eraseKey, dget, List.filter]

theorem dget_eraseKey_self (d : Dict) (k : String) :
    dget (eraseKey d k) k = PyValue.none := by
  induction d with
  | nil => simp [eraseKey, dget]
  | cons p rest ih =>
    obtain ⟨k₀, v₀⟩ := p
    by_cases h₀ : k₀ = k <;> simp_all [eraseKey, dget, List.filter]

theorem dget_dset_none_eq_eraseKey (d : Dict) (k j : String) :
    dget (dset d k PyValue.none) j = dget (eraseKey d k) j := by
  by_cases h : k = j
  · subst h; rw [dget_dset_self, dget_eraseKey_self]
  · rw [dget_dset_ne _ _ _ _ h, dget_eraseKey_ne _ _ _ h]

/-! ## `compare_digest` lemmas -/

theorem foldl_and_eq_all (l : List (Char × Char)) (acc : Bool) :
    l.foldl (fun acc p => acc && (p.1 == p.2)) acc =
      (acc && l.all (fun p => p.1 == p.2)) := by
  induction l generalizing acc with
  | nil => simp
  | cons p rest ih => simp [List.foldl, ih, Bool.and_assoc]

theorem zip_all_eq_iff (l₁ l₂ : List Char) (h : l₁.length = l₂.length) :
    (l₁.zip l₂).all (fun p => p.1 == p.2) = true ↔ l₁ = l₂ := by
  induction l₁ generalizing l₂ with
  | nil => cases l₂ <;> simp_all
  | cons a rest ih =>
    cases l₂ with
    | nil => simp_all
    | cons b rest₂ =>
      have h' : rest.length = rest₂.length := by simpa using h
      simp only [List.zip_cons_cons, List.all_cons, Bool.and_eq_true,
        beq_iff_eq, List.cons.injEq]
      exact and_congr_right fun _ => ih rest₂ h'

theorem compare_digest_eq_iff (a b : String) :
    compare_digest a b = true ↔ a = b := by
  unfold compare_digest
  rw [foldl_and_eq_all]
  simp only [Bool.true_and, Bool.and_eq_true, beq_iff_eq]
  constructor
  · rintro ⟨hlen, hall⟩
    exact String.ext ((zip_all_eq_iff a.data b.data hlen).mp hall)
  · intro h; subst h
    exact ⟨rfl, (zip_all_eq_iff a.data a.data rfl).mpr rfl⟩

theorem compare_digest_self (a : String) : compare_digest a a = true :=
  (compare_digest_eq_iff a a).mpr rfl

theorem compare_digest_ne (a b : String) (h : a ≠ b) :
    compare_digest a b = false := by
  by_contra hc
  exact h ((compare_digest_eq_iff a b).mp (by simpa using hc))

/-! ## Lemmas about the view's helpers -/

namespace AlexaFlashBriefingView

theorem add_attr_of_none (item : Dict) (ck ok : String) (out : Dict)
    (h : dget item ck = PyValue.none) :
    add_attribute_to_output item ck out ok = out := by
  simp [add_attribute_to_output, h]

theorem add_attr_of_template (item : Dict) (ck ok : String) (out : Dict)
    (r : String) (h : dget item ck = PyValue.template r) :
    add_attribute_to_output item ck out ok = dset out ok (PyValue.str r) := by
  simp [add_attribute_to_output, h]

theorem add_attr_of_literal (item : Dict) (ck ok : String) (out : Dict)
    (v : PyValue) (h : dget item ck = v) (hn : v ≠ PyValue.none)
    (ht : ∀ r, v ≠ PyValue.template r) :
    add_attribute_to_output item ck out ok = dset out ok v := by
  subst h
  cases hv : dget item ck with
  | none => exact absurd hv hn
  | template r => exact absurd hv (ht r)
  | str s => simp [add_attribute_to_output, hv]
  | int n => simp [add_attribute_to_output, hv]
  | list xs => simp [add_attribute_to_output, hv]
  | dict es => simp [add_attribute_to_output, hv]

theorem dget_add_attr_ne (item : Dict) (ck : String) (out : Dict)
    (ok k : String) (h : ok ≠ k) :
    dget (add_attribute_to_output item ck out ok) k = dget out k := by
  unfold add_attribute_to_output
  cases dget item ck <;> simp [dget_dset_ne out ok k _ h]

theorem hasKey_add_attr_ne (item : Dict) (ck : String) (out : Dict)
    (ok k : String) (h : ok ≠ k) :
    hasKey (add_attribute_to_output item ck out ok) k = hasKey out k := by
  unfold add_attribute_to_output
  cases dget item ck <;> simp [hasKey_dset_ne out ok k _ h]

theorem dset_isEmpty_false (d : Dict) (k : String) (v : PyValue) :
    (dset d k v).isEmpty = false := by
  cases h : dset d k v with
  | nil => exact absurd h (dset_ne_nil d k v)
  | cons p rest => rfl

/-! Projections of the record built by `process_item` at each output key.
The chains of `dget_dset_ne` / `dget_add_attr_ne` steps are discharged by
deciding the inequality of the concrete wire-key strings. -/

theorem record_updateDate (item : Dict) (u now : String) :
    dget (process_item_dict item u now) ATTR_UPDATE_DATE =
      PyValue.str now := by
  unfold process_item_dict
  exact dget_dset_self _ _ _

theorem record_hasKey_updateDate (item : Dict) (u now : String) :
    hasKey (process_item_dict item u now) ATTR_UPDATE_DATE = true := by
  unfold process_item_dict
  exact hasKey_dset_self _ _ _

theorem record_uid (item : Dict) (u now : String) :
    dget (process_item_dict item u now) ATTR_UID =
      PyValue.str (get_uid item u) := by
  unfold process_item_dict
  simp (disch := decide) only [dget_dset_ne, dget_add_attr_ne, dget_dset_self]

theorem record_hasKey_uid (item : Dict) (u now : String) :
    hasKey (process_item_dict item u now) ATTR_UID = true := by
  unfold process_item_dict
  simp (disch := decide) only [hasKey_dset_ne, hasKey_add_attr_ne, hasKey_dset_self]

theorem record_titleText (item : Dict) (u now : String) :
    dget (process_item_dict item u now) ATTR_TITLE_TEXT =
      dget (add_attribute_to_output item CONF_TITLE [] ATTR_TITLE_TEXT)
        ATTR_TITLE_TEXT := by
  unfold process_item_dict
  simp (disch := decide) only [dget_dset_ne, dget_add_attr_ne]

theorem record_hasKey_titleText (item : Dict) (u now : String) :
    hasKey (process_item_dict item u now) ATTR_TITLE_TEXT =
      hasKey (add_attribute_to_output item CONF_TITLE [] ATTR_TITLE_TEXT)
        ATTR_TITLE_TEXT := by
  unfold process_item_dict
  simp (disch := decide) only [hasKey_dset_ne, hasKey_add_attr_ne]

theorem record_mainText (item : Dict) (u now : String) :
    dget (process_item_dict item u now) ATTR_MAIN_TEXT =
      dget (add_attribute_to_output item CONF_TEXT
        (add_attribute_to_output item CONF_TITLE [] ATTR_TITLE_TEXT)
        ATTR_MAIN_TEXT) ATTR_MAIN_TEXT := by
  unfold process_item_dict
  simp (disch := decide) only [dget_dset_ne, dget_add_attr_ne]

theorem record_hasKey_mainText (item : Dict) (u now : String) :
    hasKey (process_item_dict item u now) ATTR_MAIN_TEXT =
      hasKey (add_attribute_to_output item CONF_TEXT
        (add_attribute_to_output item CONF_TITLE [] ATTR_TITLE_TEXT)
        ATTR_MAIN_TEXT) ATTR_MAIN_TEXT := by
  unfold process_item_dict
  simp (disch := decide) only [hasKey_dset_ne, hasKey_add_attr_ne]

end AlexaFlashBriefingView

namespace AlexaFlashBriefingView

theorem dget_add_attr_self (item : Dict) (ck : String) (out : Dict)
    (ok : String) :
    dget (add_attribute_to_output item ck out ok) ok =
      (match dget item ck with
       | PyValue.none => dget out ok
       | PyValue.template r => PyValue.str r
       | v => v) := by
  unfold add_attribute_to_output
  cases dget item ck <;> simp [dget_dset_self]

theorem hasKey_add_attr_self (item : Dict) (ck : String) (out : Dict)
    (ok : String) :
    hasKey (add_attribute_to_output item ck out ok) ok =
      (match dget item ck with
       | PyValue.none => hasKey out ok
       | _ => true) := by
  unfold add_attribute_to_output
  cases dget item ck <;> simp [hasKey_dset_self]

/-- The value the record built by `process_item` holds at `ATTR_TITLE_TEXT`:
absent field ↦ no entry (`dget` defaults to `none`), template ↦ its
rendering, literal ↦ the literal unchanged. -/
theorem record_titleText_spec (item : Dict) (u now : String) :
    dget (process_item_dict item u now) ATTR_TITLE_TEXT =
      (match dget item CONF_TITLE with
       | PyValue.none => PyValue.none
       | PyValue.template r => PyValue.str r
       | v => v) := by
  rw [record_titleText, dget_add_attr_self]
  cases dget item CONF_TITLE <;> simp [dget]

theorem record_hasKey_titleText_spec (item : Dict) (u now : String) :
    hasKey (process_item_dict item u now) ATTR_TITLE_TEXT =
      (match dget item CONF_TITLE with
       | PyValue.none => false
       | _ => true) := by
  rw [record_hasKey_titleText, hasKey_add_attr_self]
  cases dget item CONF_TITLE <;> simp [hasKey]

theorem record_mainText_spec (item : Dict) (u now : String) :
    dget (process_item_dict item u now) ATTR_MAIN_TEXT =
      (match dget item CONF_TEXT with
       | PyValue.none => PyValue.none
       | PyValue.template r => PyValue.str r
       | v => v) := by
  rw [record_mainText, dget_add_attr_self]
  cases dget item CONF_TEXT <;>
    simp (disch := decide) only [dget_add_attr_ne] <;> simp [dget]

theorem record_hasKey_mainText_spec (item : Dict) (u now : String) :
    hasKey (process_item_dict item u now) ATTR_MAIN_TEXT =
      (match dget item CONF_TEXT with
       | PyValue.none => false
       | _ => true) := by
  rw [record_hasKey_mainText, hasKey_add_attr_self]
  cases dget item CONF_TEXT <;>
    simp (disch := decide) only [hasKey_add_attr_ne] <;> simp [hasKey]

theorem record_streamUrl_spec (item : Dict) (u now : String) :
    dget (process_item_dict item u now) ATTR_STREAM_URL =
      (match dget item CONF_AUDIO with
       | PyValue.none => PyValue.none
       | PyValue.template r => PyValue.str r
       | v => v) := by
  unfold process_item_dict
  simp (disch := decide) only [dget_dset_ne, dget_add_attr_ne]
  rw [dget_add_attr_self]
  cases dget item CONF_AUDIO <;>
    simp (disch := decide) only [dget_dset_ne, dget_add_attr_ne] <;> simp [dget]

theorem record_hasKey_streamUrl_spec (item : Dict) (u now : String) :
    hasKey (process_item_dict item u now) ATTR_STREAM_URL =
      (match dget item CONF_AUDIO with
       | PyValue.none => false
       | _ => true) := by
  unfold process_item_dict
  simp (disch := decide) only [hasKey_dset_ne, hasKey_add_attr_ne]
  rw [hasKey_add_attr_self]
  cases dget item CONF_AUDIO <;>
    simp (disch := decide) only [hasKey_dset_ne, hasKey_add_attr_ne] <;>
      simp [hasKey]

theorem record_redirectionUrl_spec (item : Dict) (u now : String) :
    dget (process_item_dict item u now) ATTR_REDIRECTION_URL =
      (match dget item CONF_DISPLAY_URL with
       | PyValue.none => PyValue.none
       | PyValue.template r => PyValue.str r
       | v => v) := by
  unfold process_item_dict
  simp (disch := decide) only [dget_dset_ne]
  rw [dget_add_attr_self]
  cases dget item CONF_DISPLAY_URL <;>
    simp (disch := decide) only [dget_dset_ne, dget_add_attr_ne] <;> simp [dget]

theorem record_hasKey_redirectionUrl_spec (item : Dict) (u now : String) :
    hasKey (process_item_dict item u now) ATTR_REDIRECTION_URL =
      (match dget item CONF_DISPLAY_URL with
       | PyValue.none => false
       | _ => true) := by
  unfold process_item_dict
  simp (disch := decide) only [hasKey_dset_ne]
  rw [hasKey_add_attr_self]
  cases dget item CONF_DISPLAY_URL <;>
    simp (disch := decide) only [hasKey_dset_ne, hasKey_add_attr_ne] <;>
      simp [hasKey]

end AlexaFlashBriefingView

namespace AlexaFlashBriefingView

theorem record_isEmpty_false (item : Dict) (u now : String) :
    (process_item_dict item u now).isEmpty = false := by
  unfold process_item_dict
  exact dset_isEmpty_false _ _ _

/-- When every configured item is a dict, the item loop succeeds, skips
nothing, and processes item `i` with the `i`-th fresh UUID draw. -/
theorem processItems_all_dicts (items : List PyValue) (fresh : Nat → String)
    (now : String) (h : ∀ x ∈ items, ∃ d, x = PyValue.dict d) :
    ∃ recs, processItems items fresh now = some recs ∧
      recs.length = items.length ∧
      ∀ i (hi : i < items.length) (hr : i < recs.length),
        some (recs.get ⟨i, hr⟩) =
          process_item (items.get ⟨i, hi⟩) (fresh i) now := by
  induction items generalizing fresh with
  | nil =>
    exact ⟨[], rfl, rfl, fun i hi => absurd hi (Nat.not_lt_zero i)⟩
  | cons x xs ih =>
    obtain ⟨d, rfl⟩ := h x (List.mem_cons_self x xs)
    obtain ⟨recs', h1, h2, h3⟩ :=
      ih (fun n => fresh (n + 1)) (fun y hy => h y (List.mem_cons_of_mem _ hy))
    refine ⟨process_item_dict d (fresh 0) now :: recs', ?_, by simp [h2], ?_⟩
    · simp [processItems, process_item, h1, record_isEmpty_false]
    · intro i hi hr
      cases i with
      | zero => simp [process_item]
      | succ n =>
        simpa using h3 n (by simpa using hi) (by simpa using hr)

end AlexaFlashBriefingView

/-! ## Claim theorems -/

namespace AlexaFlashBriefingView

/-- C2: for every request in which the `api_password` query parameter is
absent, `get` returns status 401 (Unauthorized) with an empty body — for
every configuration, briefing ID, UUID draw and clock value, so no briefing
lookup or item processing can influence the outcome. -/
theorem C2_missing_password_unauthorized (cfg : Dict) (req : Request)
    (bid : String) (fresh : Nat → String) (now : String)
    (h : qget req.query API_PASSWORD = Option.none) :
    get cfg req bid fresh now = some (Response.plain "" 401) := by
  unfold get validate_password
  rw [h]

theorem C2_witness :
    qget (Request.mk [("q", "x")]).query API_PASSWORD = Option.none ∧
    get [(CONF_PASSWORD, PyValue.str "secret"),
        ("news", PyValue.list [PyValue.dict []])]
      (Request.mk [("q", "x")]) "news" (fun _ => "u") "d" =
      some (Response.plain "" 401) := by
  refine ⟨rfl, ?_⟩
  exact C2_missing_password_unauthorized _ _ _ _ _ rfl

/-- C3: for every request whose supplied password differs from the
configured password (same-length near-matches included), `get` returns 401
with an empty body; and the `hmac.compare_digest` comparison is
constant-time in the modelled cost: its step count `ctSteps` depends only
on the lengths of the two operands, never on the position of the first
mismatching character. -/
theorem C3_wrong_password_unauthorized_constant_time (cfg : Dict)
    (req : Request) (bid : String) (fresh : Nat → String) (now : String)
    (s p : String) (hq : qget req.query API_PASSWORD = some s)
    (hp : dget cfg CONF_PASSWORD = PyValue.str p) (hne : s ≠ p) :
    get cfg req bid fresh now = some (Response.plain "" 401) ∧
    ∀ s' p' : String, s'.data.length = s.data.length →
      p'.data.length = p.data.length →
      ctSteps s'.data p'.data = ctSteps s.data p.data := by
  constructor
  · simp [get, validate_password, hq, hp, compare_digest_ne s p hne]
  · intro s' p' hs hp'
    simp [ctSteps, List.length_zip, hs, hp']

theorem C3_witness :
    qget (Request.mk [(API_PASSWORD, "secreU")]).query API_PASSWORD =
      some "secreU" ∧
    dget [(CONF_PASSWORD, PyValue.str "secret")] CONF_PASSWORD =
      PyValue.str "secret" ∧
    "secreU" ≠ "secret" ∧
    get [(CONF_PASSWORD, PyValue.str "secret")]
      (Request.mk [(API_PASSWORD, "secreU")]) "news" (fun _ => "u") "d" =
      some (Response.plain "" 401) ∧
    ctSteps "abcdeX".data "secret".data = ctSteps "secreU".data "secret".data
    := by
  refine ⟨rfl, rfl, by decide, ?_, ?_⟩
  · exact (C3_wrong_password_unauthorized_constant_time
      [(CONF_PASSWORD, PyValue.str "secret")]
      (Request.mk [(API_PASSWORD, "secreU")]) "news"
      (fun _ => "u") "d" "secreU" "secret" rfl rfl (by decide)).1
  · exact (C3_wrong_password_unauthorized_constant_time
      [(CONF_PASSWORD, PyValue.str "secret")]
      (Request.mk [(API_PASSWORD, "secreU")]) "news" (fun _ => "u") "d"
      "secreU" "secret" rfl rfl (by decide)).2 "abcdeX" "secret" rfl rfl

/-- C4: for every request carrying a valid password whose briefing ID is
not mapped to a list value (absent keys read as `None`, hence are never
lists), `get` returns status 404 (NotFound) with an empty body. -/
theorem C4_invalid_briefing_not_found (cfg : Dict) (req : Request)
    (bid : String) (fresh : Nat → String) (now : String)
    (hpw : validate_password cfg req = some true)
    (hb : ∀ xs, dget cfg bid ≠ PyValue.list xs) :
    get cfg req bid fresh now = some (Response.plain "" 404) := by
  have hvalid : is_valid_briefing cfg bid = false := by
    unfold is_valid_briefing
    cases hd : dget cfg bid with
    | list xs => exact absurd hd (hb xs)
    | none => rfl
    | str s => rfl
    | int n => rfl
    | template r => rfl
    | dict es => rfl
  unfold get
  rw [hpw, hvalid]
  rfl

theorem C4_witness :
    validate_password [(CONF_PASSWORD, PyValue.str "secret")]
      (Request.mk [(API_PASSWORD, "secret")]) = some true ∧
    (∀ xs, dget [(CONF_PASSWORD, PyValue.str "secret")] "unknown" ≠
      PyValue.list xs) ∧
    get [(CONF_PASSWORD, PyValue.str "secret")]
      (Request.mk [(API_PASSWORD, "secret")]) "unknown" (fun _ => "u") "d" =
      some (Response.plain "" 404) := by
  refine ⟨rfl, ?_, ?_⟩
  · intro xs h
    exact PyValue.noConfusion h
  · exact C4_invalid_briefing_not_found _ _ _ _ _ rfl
      (fun xs h => PyValue.noConfusion h)

end AlexaFlashBriefingView

namespace AlexaFlashBriefingView

/-- C1: for every request that passes password validation and names a
briefing ID mapped to a list of N configured items, `get` returns status
200 with a JSON array of exactly N output records, in configuration order
(record `i` is the transform of item `i`), and every record contains a
`uid` key and an `updateDate` key. -/
theorem C1_valid_request_full_array (cfg : Dict) (req : Request)
    (bid : String) (fresh : Nat → String) (now : String)
    (items : List PyValue)
    (hpw : validate_password cfg req = some true)
    (hb : dget cfg bid = PyValue.list items)
    (hdicts : ∀ x ∈ items, ∃ d, x = PyValue.dict d) :
    ∃ recs, get cfg req bid fresh now = some (Response.json recs 200) ∧
      recs.length = items.length ∧
      (∀ i (hi : i < items.length) (hr : i < recs.length),
        some (recs.get ⟨i, hr⟩) =
          process_item (items.get ⟨i, hi⟩) (fresh i) now) ∧
      ∀ r ∈ recs, hasKey r ATTR_UID = true ∧
        hasKey r ATTR_UPDATE_DATE = true := by
  obtain ⟨recs, h1, h2, h3⟩ := processItems_all_dicts items fresh now hdicts
  have hvalid : is_valid_briefing cfg bid = true := by
    unfold is_valid_briefing
    rw [hb]
  refine ⟨recs, ?_, h2, h3, ?_⟩
  · unfold get
    rw [hpw, hvalid, hb]
    simp [h1]
  · intro r hr
    obtain ⟨⟨i, hir⟩, rfl⟩ := List.mem_iff_get.mp hr
    have hi : i < items.length := by rw [← h2]; exact hir
    have := h3 i hi hir
    obtain ⟨d, hd⟩ := hdicts (items.get ⟨i, hi⟩) (List.get_mem items i hi)
    rw [hd] at this
    simp only [process_item] at this
    rw [Option.some.inj this]
    exact ⟨record_hasKey_uid d (fresh i) now,
      record_hasKey_updateDate d (fresh i) now⟩

theorem C1_witness :
    validate_password
      [(CONF_PASSWORD, PyValue.str "secret"),
       ("news", PyValue.list
          [PyValue.dict [(CONF_TITLE, PyValue.str "Static"),
                         (CONF_UID, PyValue.str "abc-1")],
           PyValue.dict []])]
      (Request.mk [(API_PASSWORD, "secret")]) = some true ∧
    dget
      [(CONF_PASSWORD, PyValue.str "secret"),
       ("news", PyValue.list
          [PyValue.dict [(CONF_TITLE, PyValue.str "Static"),
                         (CONF_UID, PyValue.str "abc-1")],
           PyValue.dict []])] "news" =
      PyValue.list
        [PyValue.dict [(CONF_TITLE, PyValue.str "Static"),
                       (CONF_UID, PyValue.str "abc-1")],
         PyValue.dict []] ∧
    ∃ recs,
      get
        [(CONF_PASSWORD, PyValue.str "secret"),
         ("news", PyValue.list
            [PyValue.dict [(CONF_TITLE, PyValue.str "Static"),
                           (CONF_UID, PyValue.str "abc-1")],
             PyValue.dict []])]
        (Request.mk [(API_PASSWORD, "secret")]) "news"
        (fun n => "u-" ++ toString n) "2026-01-01T00:00:00.0Z" =
        some (Response.json recs 200) ∧
      recs.length = 2 ∧
      ∀ r ∈ recs, hasKey r ATTR_UID = true ∧
        hasKey r ATTR_UPDATE_DATE = true := by
  refine ⟨rfl, rfl, ?_⟩
  obtain ⟨recs, hget, hlen, _, hkeys⟩ :=
    C1_valid_request_full_array
      [(CONF_PASSWORD, PyValue.str "secret"),
       ("news", PyValue.list
          [PyValue.dict [(CONF_TITLE, PyValue.str "Static"),
                         (CONF_UID, PyValue.str "abc-1")],
           PyValue.dict []])]
      (Request.mk [(API_PASSWORD, "secret")]) "news"
      (fun n => "u-" ++ toString n) "2026-01-01T00:00:00.0Z"
      [PyValue.dict [(CONF_TITLE, PyValue.str "Static"),
                     (CONF_UID, PyValue.str "abc-1")],
       PyValue.dict []]
      rfl rfl
      (by intro x hx
          fin_cases hx
          · exact ⟨_, rfl⟩
          · exact ⟨_, rfl⟩)
  exact ⟨recs, hget, hlen, hkeys⟩

end AlexaFlashBriefingView

namespace AlexaFlashBriefingView

/-- C5: `process_item` maps each of the four optional fields (title, text,
audio URL, display URL) by the same rule: a field absent from the item
(read as `None`) leaves the corresponding output key omitted entirely; a
template value yields the template's request-time rendering as a plain
string; any other configured value is passed through unchanged, with no
string coercion. -/
theorem C5_optional_field_mapping (item : Dict) (u now : String) :
    process_item (PyValue.dict item) u now =
      some (process_item_dict item u now) ∧
    dget (process_item_dict item u now) ATTR_TITLE_TEXT =
      (match dget item CONF_TITLE with
       | PyValue.none => PyValue.none
       | PyValue.template r => PyValue.str r
       | v => v) ∧
    hasKey (process_item_dict item u now) ATTR_TITLE_TEXT =
      (match dget item CONF_TITLE with
       | PyValue.none => false
       | _ => true) ∧
    dget (process_item_dict item u now) ATTR_MAIN_TEXT =
      (match dget item CONF_TEXT with
       | PyValue.none => PyValue.none
       | PyValue.template r => PyValue.str r
       | v => v) ∧
    hasKey (process_item_dict item u now) ATTR_MAIN_TEXT =
      (match dget item CONF_TEXT with
       | PyValue.none => false
       | _ => true) ∧
    dget (process_item_dict item u now) ATTR_STREAM_URL =
      (match dget item CONF_AUDIO with
       | PyValue.none => PyValue.none
       | PyValue.template r => PyValue.str r
       | v => v) ∧
    hasKey (process_item_dict item u now) ATTR_STREAM_URL =
      (match dget item CONF_AUDIO with
       | PyValue.none => false
       | _ => true) ∧
    dget (process_item_dict item u now) ATTR_REDIRECTION_URL =
      (match dget item CONF_DISPLAY_URL with
       | PyValue.none => PyValue.none
       | PyValue.template r => PyValue.str r
       | v => v) ∧
    hasKey (process_item_dict item u now) ATTR_REDIRECTION_URL =
      (match dget item CONF_DISPLAY_URL with
       | PyValue.none => false
       | _ => true) :=
  ⟨rfl, record_titleText_spec item u now, record_hasKey_titleText_spec item u now,
    record_mainText_spec item u now, record_hasKey_mainText_spec item u now,
    record_streamUrl_spec item u now, record_hasKey_streamUrl_spec item u now,
    record_redirectionUrl_spec item u now,
    record_hasKey_redirectionUrl_spec item u now⟩

/-- C6: an item with an explicit UID always yields the stringified
configured UID — identical across two invocations with different fresh
UUID draws — while an item without one yields exactly this invocation's
fresh `uuid.uuid4()` string, so two invocations with distinct draws yield
distinct `uid` values. -/
theorem C6_uid_stability (item : Dict) (u₁ u₂ now : String) :
    (∀ v, dget item CONF_UID = v → v ≠ PyValue.none →
      dget (process_item_dict item u₁ now) ATTR_UID =
        PyValue.str (pyStr v) ∧
      dget (process_item_dict item u₁ now) ATTR_UID =
        dget (process_item_dict item u₂ now) ATTR_UID) ∧
    (dget item CONF_UID = PyValue.none →
      dget (process_item_dict item u₁ now) ATTR_UID = PyValue.str u₁ ∧
      (u₁ ≠ u₂ →
        dget (process_item_dict item u₁ now) ATTR_UID ≠
          dget (process_item_dict item u₂ now) ATTR_UID)) := by
  constructor
  · intro v hv hvne
    constructor
    · rw [record_uid]
      unfold get_uid
      rw [hv]
      cases v with
      | none => exact absurd rfl hvne
      | str s => rfl
      | int n => rfl
      | template r => rfl
      | list xs => rfl
      | dict es => rfl
    · rw [record_uid, record_uid]
      unfold get_uid
      rw [hv]
      cases v with
      | none => exact absurd rfl hvne
      | str s => rfl
      | int n => rfl
      | template r => rfl
      | list xs => rfl
      | dict es => rfl
  · intro h
    have h₁ : dget (process_item_dict item u₁ now) ATTR_UID =
        PyValue.str u₁ := by
      rw [record_uid]; unfold get_uid; rw [h]
    have h₂ : dget (process_item_dict item u₂ now) ATTR_UID =
        PyValue.str u₂ := by
      rw [record_uid]; unfold get_uid; rw [h]
    refine ⟨h₁, fun hne heq => hne ?_⟩
    rw [h₁, h₂] at heq
    exact PyValue.str.inj heq

theorem C6_witness :
    dget [(CONF_UID, PyValue.str "abc-1")] CONF_UID =
      PyValue.str "abc-1" ∧
    PyValue.str "abc-1" ≠ PyValue.none ∧
    dget (process_item_dict [(CONF_UID, PyValue.str "abc-1")] "u1" "d")
      ATTR_UID = PyValue.str (pyStr (PyValue.str "abc-1")) ∧
    dget (process_item_dict [(CONF_UID, PyValue.str "abc-1")] "u1" "d")
      ATTR_UID =
      dget (process_item_dict [(CONF_UID, PyValue.str "abc-1")] "u2" "d")
        ATTR_UID ∧
    dget ([] : Dict) CONF_UID = PyValue.none ∧
    "u1" ≠ "u2" ∧
    dget (process_item_dict ([] : Dict) "u1" "d") ATTR_UID =
      PyValue.str "u1" ∧
    dget (process_item_dict ([] : Dict) "u1" "d") ATTR_UID ≠
      dget (process_item_dict ([] : Dict) "u2" "d") ATTR_UID := by
  have hex := (C6_uid_stability [(CONF_UID, PyValue.str "abc-1")] "u1" "u2"
    "d").1 (PyValue.str "abc-1") rfl (fun h => PyValue.noConfusion h)
  have habs := (C6_uid_stability ([] : Dict) "u1" "u2" "d").2 rfl
  exact ⟨rfl, fun h => PyValue.noConfusion h, hex.1, hex.2, rfl, by decide,
    habs.1, habs.2 (by decide)⟩

/-- C7: for every item, `process_item` sets the `updateDate` output key to
the formatted current UTC time of the request, regardless of the item's
content. -/
theorem C7_updateDate_always_current (item : Dict) (u now : String) :
    process_item (PyValue.dict item) u now =
      some (process_item_dict item u now) ∧
    dget (process_item_dict item u now) ATTR_UPDATE_DATE =
      PyValue.str now ∧
    hasKey (process_item_dict item u now) ATTR_UPDATE_DATE = true :=
  ⟨rfl, record_updateDate item u now, record_hasKey_updateDate item u now⟩

end AlexaFlashBriefingView

namespace AlexaFlashBriefingView

/-- C8: the handler has no mixed-success outcome.  Whenever `get` returns
a response, it is either an empty-bodied 401 (password validation failed),
an empty-bodied 404 (password valid, briefing-ID validation failed), or a
200 JSON response obtained by transforming the briefing's full item list;
no other outcome exists. -/
theorem C8_terminal_outcomes (cfg : Dict) (req : Request) (bid : String)
    (fresh : Nat → String) (now : String) (r : Response)
    (h : get cfg req bid fresh now = some r) :
    (r = Response.plain "" 401 ∧ validate_password cfg req = some false) ∨
    (r = Response.plain "" 404 ∧ validate_password cfg req = some true ∧
      is_valid_briefing cfg bid = false) ∨
    (∃ recs, r = Response.json recs 200 ∧
      validate_password cfg req = some true ∧
      is_valid_briefing cfg bid = true ∧
      ∀ items, dget cfg bid = PyValue.list items →
        processItems items fresh now = some recs) := by
  unfold get at h
  cases hv : validate_password cfg req with
  | none => rw [hv] at h; exact absurd h (by simp)
  | some b =>
    rw [hv] at h
    cases b with
    | false =>
      left
      simp only [Option.some.injEq] at h
      exact ⟨h.symm, rfl⟩
    | true =>
      cases hb : is_valid_briefing cfg bid with
      | false =>
        rw [hb] at h
        simp only [Bool.false_eq_true, if_false, Option.some.injEq] at h
        exact Or.inr (Or.inl ⟨h.symm, rfl, rfl⟩)
      | true =>
        rw [hb] at h
        simp only [if_true] at h
        cases hd : dget cfg bid with
        | list items =>
          rw [hd] at h
          have h' : Option.map (fun recs => Response.json recs 200)
              (processItems items fresh now) = some r := h
          cases hp : processItems items fresh now with
          | none => rw [hp] at h'; exact absurd h' (by simp)
          | some recs =>
            rw [hp] at h'
            have h'' : Response.json recs 200 = r := by simpa using h'
            refine Or.inr (Or.inr ⟨recs, h''.symm, rfl, rfl, ?_⟩)
            intro items' hitems'
            rw [← PyValue.list.inj hitems']
            exact hp
        | none =>
          exact absurd (by unfold is_valid_briefing; rw [hd] : 
            is_valid_briefing cfg bid = false) (by rw [hb]; simp)
        | str s =>
          exact absurd (by unfold is_valid_briefing; rw [hd] :
            is_valid_briefing cfg bid = false) (by rw [hb]; simp)
        | int n =>
          exact absurd (by unfold is_valid_briefing; rw [hd] :
            is_valid_briefing cfg bid = false) (by rw [hb]; simp)
        | template t =>
          exact absurd (by unfold is_valid_briefing; rw [hd] :
            is_valid_briefing cfg bid = false) (by rw [hb]; simp)
        | dict es =>
          exact absurd (by unfold is_valid_briefing; rw [hd] :
            is_valid_briefing cfg bid = false) (by rw [hb]; simp)

theorem C8_witness :
    get [(CONF_PASSWORD, PyValue.str "secret")]
      (Request.mk [(API_PASSWORD, "secret")]) "unknown" (fun _ => "u") "d" =
      some (Response.plain "" 404) ∧
    ((Response.plain "" 404 = Response.plain "" 401 ∧
      validate_password [(CONF_PASSWORD, PyValue.str "secret")]
        (Request.mk [(API_PASSWORD, "secret")]) = some false) ∨
    (Response.plain "" 404 = Response.plain "" 404 ∧
      validate_password [(CONF_PASSWORD, PyValue.str "secret")]
        (Request.mk [(API_PASSWORD, "secret")]) = some true ∧
      is_valid_briefing [(CONF_PASSWORD, PyValue.str "secret")] "unknown" =
        false) ∨
    (∃ recs, Response.plain "" 404 = Response.json recs 200 ∧
      validate_password [(CONF_PASSWORD, PyValue.str "secret")]
        (Request.mk [(API_PASSWORD, "secret")]) = some true ∧
      is_valid_briefing [(CONF_PASSWORD, PyValue.str "secret")] "unknown" =
        true ∧
      ∀ items,
        dget [(CONF_PASSWORD, PyValue.str "secret")] "unknown" =
          PyValue.list items →
        processItems items (fun _ => "u") "d" = some recs)) := by
  refine ⟨rfl, ?_⟩
  exact C8_terminal_outcomes [(CONF_PASSWORD, PyValue.str "secret")]
    (Request.mk [(API_PASSWORD, "secret")]) "unknown" (fun _ => "u") "d"
    (Response.plain "" 404) rfl

/-- C9: the defensive skip branch is unreachable in practice: the record
`process_item` builds for any item dict is never empty — it always carries
at least the `uid` and `updateDate` keys — so every configured item of a
valid briefing contributes exactly one record to the response. -/
theorem C9_skip_branch_unreachable (item : Dict) (u now : String)
    (items : List PyValue) (fresh : Nat → String)
    (h : ∀ x ∈ items, ∃ d, x = PyValue.dict d) :
    (process_item_dict item u now).isEmpty = false ∧
    hasKey (process_item_dict item u now) ATTR_UID = true ∧
    hasKey (process_item_dict item u now) ATTR_UPDATE_DATE = true ∧
    ∃ recs, processItems items fresh now = some recs ∧
      recs.length = items.length := by
  obtain ⟨recs, h1, h2, _⟩ := processItems_all_dicts items fresh now h
  exact ⟨record_isEmpty_false item u now, record_hasKey_uid item u now,
    record_hasKey_updateDate item u now, recs, h1, h2⟩

theorem C9_witness :
    (∀ x ∈ [PyValue.dict [(CONF_TITLE, PyValue.str "t")]],
      ∃ d, x = PyValue.dict d) ∧
    (process_item_dict [(CONF_TITLE, PyValue.str "t")] "u" "d").isEmpty =
      false ∧
    hasKey (process_item_dict [(CONF_TITLE, PyValue.str "t")] "u" "d")
      ATTR_UID = true ∧
    hasKey (process_item_dict [(CONF_TITLE, PyValue.str "t")] "u" "d")
      ATTR_UPDATE_DATE = true ∧
    ∃ recs,
      processItems [PyValue.dict [(CONF_TITLE, PyValue.str "t")]]
        (fun _ => "u") "d" = some recs ∧
      recs.length =
        ([PyValue.dict [(CONF_TITLE, PyValue.str "t")]] : List PyValue).length
    := by
  have hd : ∀ x ∈ [PyValue.dict [(CONF_TITLE, PyValue.str "t")]],
      ∃ d, x = PyValue.dict d := by
    intro x hx
    fin_cases hx
    exact ⟨_, rfl⟩
  exact ⟨hd,
    C9_skip_branch_unreachable [(CONF_TITLE, PyValue.str "t")] "u" "d"
      [PyValue.dict [(CONF_TITLE, PyValue.str "t")]] (fun _ => "u") hd⟩

/-- C10: a configuration field explicitly set to `None` behaves exactly
like an absent field, because presence is tested with `is not None` rather
than key membership: `add_attribute_to_output` cannot distinguish an item
carrying `(k, None)` from the same item with `k` erased, a field set to
`None` produces no output entry, and a `uid` set to `None` falls back to
the freshly generated UUID. -/
theorem C10_none_equals_absent (item : Dict) (k ck ok : String)
    (out : Dict) (u : String) :
    add_attribute_to_output (dset item k PyValue.none) ck out ok =
      add_attribute_to_output (eraseKey item k) ck out ok ∧
    get_uid (dset item k PyValue.none) u =
      get_uid (eraseKey item k) u ∧
    add_attribute_to_output (dset item ck PyValue.none) ck out ok = out ∧
    get_uid (dset item CONF_UID PyValue.none) u = u := by
  refine ⟨?_, ?_, ?_, ?_⟩
  · unfold add_attribute_to_output
    rw [dget_dset_none_eq_eraseKey]
  · unfold get_uid
    rw [dget_dset_none_eq_eraseKey]
  · exact add_attr_of_none _ _ _ _ (dget_dset_self item ck PyValue.none)
  · unfold get_uid
    rw [dget_dset_self]

end AlexaFlashBriefingView
